import Mathlib

/-!
Verification of the SDN-zone reconciliation logic of the
`community.proxmox` collection.

The embedding follows `plugins/modules/proxmox_sdn_zone.py`
(`ProxmoxSDNZoneModule.get_zone`, `build_payload`, `build_updates`,
`ensure_present`, `ensure_absent`, `main`) and
`plugins/module_utils/sdn.py` (`apply_sdn_configuration`).

Python dictionaries are modelled as association lists with Python
`dict` semantics (assignment replaces the value of the first matching
key in place, otherwise appends); Python scalar values as `PValue`
with Python `str()` given by `pstr`; transport effects (the proxmoxer
API) are injected as an `Api` record of responses, and each run
returns the list of mutating API calls it issued together with either
a fatal `fail_json` message or the `(changed, zone_data, msg)` triple.
-/

namespace SdnZone

/-- A Python scalar value as it occurs in module parameters and in the
JSON-decoded zone state: a string, an integer, a boolean, or `None`. -/
inductive PValue where
  | str (s : String)
  | int (n : Int)
  | bool (b : Bool)
  | pynone
deriving DecidableEq, Repr

/-- Python `str()` on a `PValue`. -/
def pstr : PValue → String
  | .str s => s
  | .int n => toString n
  | .bool b => if b then "True" else "False"
  | .pynone => "None"

/-- Python `str()` applied to the result of `dict.get` (a missing key
yields `None`, whose `str()` is `"None"`). -/
def pstrOpt : Option PValue → String
  | Option.none => "None"
  | some v => pstr v

/-- A Python `dict` with string keys, as an association list. -/
abbrev Dict := List (String × PValue)

/-- `d.get(k)`: the value of the first entry with key `k`, if any. -/
def dget : Dict → String → Option PValue
  | [], _ => Option.none
  | kv :: rest, k => if kv.1 == k then some kv.2 else dget rest k

/-- `d[k] = v`: replace the value of the first entry with key `k`,
keeping its position, else append `(k, v)` at the end. -/
def dinsert : Dict → String → PValue → Dict
  | [], k, v => [(k, v)]
  | kv :: rest, k, v =>
    if kv.1 == k then (k, v) :: rest else kv :: dinsert rest k v

/-- `d.update(upds)`: assign every entry of `upds` into `d` in order. -/
def dupdate (d : Dict) (upds : Dict) : Dict :=
  upds.foldl (fun acc kv => dinsert acc kv.1 kv.2) d

/-- Python truthiness of the result of `get_zone` (`None` and the
empty dict are falsy). -/
def truthyZone : Option Dict → Bool
  | Option.none => false
  | some d => !d.isEmpty

/-- Python truthiness of an optional string parameter (`None` and the
empty string are falsy). -/
def truthyStr : Option String → Bool
  | Option.none => false
  | some s => !(s == "")

/-- `ZONE_OPTION_MAP` of `ProxmoxSDNZoneModule`: user-facing option
name to backend API field name, in source order. -/
def ZONE_OPTION_MAP : List (String × String) :=
  [("advertise_subnets", "advertise-subnets"),
   ("bridge", "bridge"),
   ("bridge_disable_mac_learning", "bridge-disable-mac-learning"),
   ("controller", "controller"),
   ("dhcp", "dhcp"),
   ("disable_arp_nd_suppression", "disable-arp-nd-suppression"),
   ("dns", "dns"),
   ("dnszone", "dnszone"),
   ("dp_id", "dp-id"),
   ("exitnodes", "exitnodes"),
   ("exitnodes_local_routing", "exitnodes-local-routing"),
   ("exitnodes_primary", "exitnodes-primary"),
   ("fabric", "fabric"),
   ("ipam", "ipam"),
   ("mac", "mac"),
   ("mtu", "mtu"),
   ("nodes", "nodes"),
   ("peers", "peers"),
   ("reversedns", "reversedns"),
   ("rt_import", "rt-import"),
   ("tag", "tag"),
   ("vlan_protocol", "vlan-protocol"),
   ("vrf_vxlan", "vrf-vxlan"),
   ("vxlan_port", "vxlan-port")]

/-- `BOOLEAN_OPTIONS` of `ProxmoxSDNZoneModule`. -/
def BOOLEAN_OPTIONS : List String :=
  ["advertise_subnets",
   "bridge_disable_mac_learning",
   "disable_arp_nd_suppression",
   "exitnodes_local_routing"]

/-- Modelled from the spec: `ansible_to_proxmox_bool` lives in
`plugins/module_utils/proxmox.py`, which is not among the sources
here; per the spec the backend represents booleans as the integers
0/1 and the coercion is applied uniformly at payload-build time
(confirmed by the unit tests, where `advertise_subnets=True` is sent
as `advertise-subnets: 1`). -/
def ansible_to_proxmox_bool : PValue → PValue
  | .bool b => .int (if b then 1 else 0)
  | v => v

/-- One iteration of the `build_payload` loop: skip an option whose
parameter is `None`, coerce the boolean options, assign under the
backend field name. -/
def payload_step (attrs : String → Option PValue) (payload : Dict)
    (of : String × String) : Dict :=
  match attrs of.1 with
  | Option.none => payload
  | some value =>
    let value :=
      if BOOLEAN_OPTIONS.contains of.1 then ansible_to_proxmox_bool value
      else value
    dinsert payload of.2 value

/-- `ProxmoxSDNZoneModule.build_payload`: walk `ZONE_OPTION_MAP`,
skip options whose parameter is `None`, coerce the boolean options,
and assign under the backend field name. `attrs` is
`self.module.params.get` restricted to the mapped options. -/
def build_payload (attrs : String → Option PValue) : Dict :=
  ZONE_OPTION_MAP.foldl (payload_step attrs) []

/-- One iteration of the `build_updates` loop: keep a desired entry
iff its `str()` differs from the `str()` of the observed value. -/
def updates_step (existing : Dict) (updates : Dict)
    (kv : String × PValue) : Dict :=
  if pstrOpt (dget existing kv.1) ≠ pstr kv.2 then
    dinsert updates kv.1 kv.2
  else updates

/-- `ProxmoxSDNZoneModule.build_updates`: the entries of `desired`
whose `str()` differs from the `str()` of the observed value
(`existing.get`, so a missing field reads as `None`). -/
def build_updates (existing desired : Dict) : Dict :=
  desired.foldl (updates_step existing) []

/-- A `proxmoxer` `ResourceException` as observed by `get_zone`: its
optional `status_code` attribute and its `str()` text. -/
structure ResourceExc where
  status_code : Option Int
  text : String
deriving DecidableEq, Repr

/-- Outcome of the GET on `cluster.sdn.zones(name)`: the decoded zone
dict, a raised `ResourceException`, or any other raised exception. -/
inductive FetchResult where
  | ok (d : Dict)
  | resourceExc (e : ResourceExc)
  | otherExc (text : String)
deriving DecidableEq, Repr

/-- Whether `pat` occurs at the start of `s`. -/
def leadsWith : List Char → List Char → Bool
  | [], _ => true
  | _ :: _, [] => false
  | a :: as, b :: bs => a == b && leadsWith as bs

/-- Whether `pat` occurs contiguously anywhere in `s`
(Python `pat in s` on strings). -/
def containsSeq (pat : List Char) : List Char → Bool
  | [] => pat.isEmpty
  | s@(_ :: t) => leadsWith pat s || containsSeq pat t

/-- Python `"404" in to_native(exc)`. -/
def contains404 (s : String) : Bool :=
  containsSeq "404".toList s.toList

/-- `ProxmoxSDNZoneModule.get_zone`: `.ok (some d)` on a successful
fetch, `.ok none` when the zone is treated as absent, `.error msg`
when `fail_json` aborts the run. -/
def get_zone (zone_name : String) (fetch : FetchResult) :
    Except String (Option Dict) :=
  match fetch with
  | .ok d => .ok (some d)
  | .resourceExc e =>
    if e.status_code == some 404 || contains404 e.text then .ok Option.none
    else
      .error ("Failed to retrieve SDN zone \x27" ++ zone_name ++ "\x27: " ++ e.text)
  | .otherExc t =>
    .error ("Failed to retrieve SDN zone \x27" ++ zone_name ++ "\x27: " ++ t)

/-- The module parameters `ensure_present`/`ensure_absent` read:
`zone`, `type`, `lock_token`, the mapped attribute options (`attrs` is
`self.module.params.get` on those), and `self.module.check_mode`. -/
structure Params where
  zone : String
  type : Option String
  lock_token : Option String
  attrs : String → Option PValue
  check_mode : Bool

/-- A mutating API call issued against the proxmoxer client. -/
inductive ApiCall where
  | create (payload : Dict)
  | update (zone : String) (payload : Dict)
  | delete (zone : String) (kwargs : Dict)
  | applySdn
deriving DecidableEq, Repr

/-- Injected transport responses: the first fetch, the outcome of each
possible mutating call (`.ok ()` for success, `.error text` for a
raised exception with that `str()`), and the re-fetch done after a
successful create or update. -/
structure Api where
  fetch1 : FetchResult
  createResult : Except String Unit
  updateResult : Except String Unit
  deleteResult : Except String Unit
  applyResult : Except String Unit
  fetch2 : FetchResult

/-- The `"type"` value put into a create payload:
`module.params.get("type")`, which may be `None`. -/
def typeVal : Option String → PValue
  | Option.none => .pynone
  | some s => .str s

/-- Result of one `ensure_*` run: the mutating calls issued, and
either the `fail_json` message or `(changed, zone_data, msg)`. -/
abbrev RunResult := List ApiCall × Except String (Bool × Option Dict × String)

/-- The `if lock_token: payload["lock-token"] = lock_token` pattern
shared by the create, update and delete paths. -/
def with_lock_token (lock_token : Option String) (d : Dict) : Dict :=
  if truthyStr lock_token then
    dinsert d "lock-token" (.str (lock_token.getD ""))
  else d

/-- The create payload of `ensure_present`: the desired payload with
`zone`, `type` and any truthy lock token assigned into it. -/
def create_payload_of (p : Params) : Dict :=
  with_lock_token p.lock_token
    (dinsert (dinsert (build_payload p.attrs) "zone" (.str p.zone)) "type"
      (typeVal p.type))

/-- `ProxmoxSDNZoneModule.ensure_present`. -/
def ensure_present (p : Params) (api : Api) : RunResult :=
  let zone_name := p.zone
  let zone_type := p.type
  let lock_token := p.lock_token
  let desired_payload := build_payload p.attrs
  match get_zone zone_name api.fetch1 with
  | .error e => ([], .error e)
  | .ok existing_zone =>
    if !truthyZone existing_zone then
      let create_payload := create_payload_of p
      if p.check_mode then
        ([], .ok (true, some create_payload,
          "SDN zone \x27" ++ zone_name ++ "\x27 would be created (check mode)."))
      else
        match api.createResult with
        | .error e =>
          ([.create create_payload],
           .error ("Failed to create SDN zone \x27" ++ zone_name ++ "\x27: " ++ e))
        | .ok _ =>
          match get_zone zone_name api.fetch2 with
          | .error e => ([.create create_payload], .error e)
          | .ok new_zone =>
            ([.create create_payload],
             .ok (true, new_zone, "SDN zone \x27" ++ zone_name ++ "\x27 created."))
    else
      let ez := existing_zone.getD []
      if truthyStr zone_type &&
          !(pstrOpt (dget ez "type") == zone_type.getD "") then
        ([], .error ("SDN zone \x27" ++ zone_name ++
          "\x27 already exists with type \x27" ++ pstrOpt (dget ez "type") ++
          "\x27 which does not match the requested type \x27" ++
          zone_type.getD "" ++ "\x27"))
      else
        let updates := build_updates ez desired_payload
        if updates.isEmpty then
          ([], .ok (false, some ez,
            "SDN zone \x27" ++ zone_name ++ "\x27 already present."))
        else
          let updates := with_lock_token lock_token updates
          if p.check_mode then
            ([], .ok (true, some ez,
              "SDN zone \x27" ++ zone_name ++ "\x27 would be updated (check mode)."))
          else
            match api.updateResult with
            | .error e =>
              ([.update zone_name updates],
               .error ("Failed to update SDN zone \x27" ++ zone_name ++ "\x27: " ++ e))
            | .ok _ =>
              match get_zone zone_name api.fetch2 with
              | .error e => ([.update zone_name updates], .error e)
              | .ok new_zone =>
                ([.update zone_name updates],
                 .ok (true, new_zone,
                   "SDN zone \x27" ++ zone_name ++ "\x27 updated."))

/-- `ProxmoxSDNZoneModule.ensure_absent`. -/
def ensure_absent (p : Params) (api : Api) : RunResult :=
  let zone_name := p.zone
  let lock_token := p.lock_token
  match get_zone zone_name api.fetch1 with
  | .error e => ([], .error e)
  | .ok existing_zone =>
    if !truthyZone existing_zone then
      ([], .ok (false, Option.none,
        "SDN zone \x27" ++ zone_name ++ "\x27 already absent."))
    else if p.check_mode then
      ([], .ok (true, existing_zone,
        "SDN zone \x27" ++ zone_name ++ "\x27 would be removed (check mode)."))
    else
      let delete_kwargs : Dict := with_lock_token lock_token []
      match api.deleteResult with
      | .error e =>
        ([.delete zone_name delete_kwargs],
         .error ("Failed to remove SDN zone \x27" ++ zone_name ++ "\x27: " ++ e))
      | .ok _ =>
        ([.delete zone_name delete_kwargs],
         .ok (true, Option.none, "SDN zone \x27" ++ zone_name ++ "\x27 removed."))

/-- `apply_sdn_configuration` of `plugins/module_utils/sdn.py`: no
call and `False` in check mode; otherwise one PUT of `apply=1`, fatal
on failure, `True` on success. -/
def apply_sdn_configuration (applyResult : Except String Unit)
    (check_mode : Bool) : List ApiCall × Except String Bool :=
  if check_mode then ([], .ok false)
  else
    match applyResult with
    | .error e =>
      ([.applySdn], .error ("Failed to apply SDN configuration: " ++ e))
    | .ok _ => ([.applySdn], .ok true)

/-- What `main` passes to `module.exit_json`. `sdn_zone` is present
iff `zone_data` was not `None`; `sdn_configuration_applied` is present
(and `True`) iff the apply step reported `True`. -/
structure ModuleResult where
  changed : Bool
  msg : String
  sdn_zone : Option Dict
  sdn_configuration_applied : Bool
deriving DecidableEq, Repr

/-- The state-dispatch and commit logic of `main` (after argument
validation): run `ensure_present` or `ensure_absent`, then on a
reported change run `apply_sdn_configuration`, and assemble the
result. -/
def main_run (p : Params) (state : String) (api : Api) :
    List ApiCall × Except String ModuleResult :=
  match (if state == "present" then ensure_present p api
         else ensure_absent p api) with
  | (calls, .error e) => (calls, .error e)
  | (calls, .ok (changed, zone_data, message)) =>
    if changed then
      match apply_sdn_configuration api.applyResult p.check_mode with
      | (calls2, .error e) => (calls ++ calls2, .error e)
      | (calls2, .ok applied) =>
        (calls ++ calls2,
         .ok ⟨changed, message, zone_data, applied⟩)
    else
      (calls, .ok ⟨changed, message, zone_data, false⟩)

/-! ### Dictionary lemmas -/

/-- The keys of a dict, in order. -/
def dkeys (d : Dict) : List String := d.map Prod.fst

theorem dget_dinsert_self (d : Dict) (k : String) (v : PValue) :
    dget (dinsert d k v) k = some v := by
  induction d with
  | nil => simp [dinsert, dget]
  | cons kv rest ih =>
    by_cases h : kv.1 = k
    · simp [dinsert, dget, beq_iff_eq, h]
    · simp [dinsert, dget, beq_iff_eq, h, ih]

theorem dget_dinsert_ne (d : Dict) (k k' : String) (v : PValue)
    (h : k' ≠ k) : dget (dinsert d k v) k' = dget d k' := by
  induction d with
  | nil => simp [dinsert, dget, beq_iff_eq, Ne.symm h]
  | cons kv rest ih =>
    by_cases hk : kv.1 = k
    · simp [dinsert, dget, beq_iff_eq, hk, Ne.symm h]
    · by_cases hk' : kv.1 = k'
      · simp [dinsert, dget, beq_iff_eq, hk, hk', h]
      · simp [dinsert, dget, beq_iff_eq, hk, hk', ih]

theorem dinsert_ne_nil (d : Dict) (k : String) (v : PValue) :
    dinsert d k v ≠ [] := by
  cases d with
  | nil => simp [dinsert]
  | cons kv rest => simp only [dinsert]; split <;> simp

theorem mem_dinsert (d : Dict) (k : String) (v : PValue) (kv : String × PValue)
    (h : kv ∈ dinsert d k v) : kv ∈ d ∨ kv = (k, v) := by
  induction d with
  | nil => simp [dinsert] at h; simp [h]
  | cons x rest ih =>
    by_cases hx : x.1 = k
    · simp [dinsert, beq_iff_eq, hx] at h
      rcases h with h | h
      · right; simp [h]
      · left; simp [h]
    · simp [dinsert, beq_iff_eq, hx] at h
      rcases h with h | h
      · left; simp [h]
      · rcases ih h with h' | h'
        · left; simp [h']
        · right; exact h'

theorem mem_dkeys_dinsert (d : Dict) (k : String) (v : PValue) (x : String)
    (h : x ∈ dkeys (dinsert d k v)) : x ∈ dkeys d ∨ x = k := by
  rcases List.mem_map.mp h with ⟨kv, hkv, hx⟩
  rcases mem_dinsert d k v kv hkv with h' | h'
  · left; exact hx ▸ List.mem_map_of_mem Prod.fst h'
  · right; rw [← hx, h']

theorem nodup_dkeys_dinsert (d : Dict) (k : String) (v : PValue)
    (h : (dkeys d).Nodup) : (dkeys (dinsert d k v)).Nodup := by
  induction d with
  | nil => simp [dinsert, dkeys]
  | cons kv rest ih =>
    rw [dkeys, List.map_cons, List.nodup_cons] at h
    by_cases hk : kv.1 = k
    · rw [show dinsert (kv :: rest) k v = (k, v) :: rest by
        simp [dinsert, beq_iff_eq, hk]]
      rw [dkeys, List.map_cons, List.nodup_cons]
      exact ⟨hk ▸ h.1, h.2⟩
    · rw [show dinsert (kv :: rest) k v = kv :: dinsert rest k v by
        simp [dinsert, beq_iff_eq, hk]]
      rw [dkeys, List.map_cons, List.nodup_cons]
      refine ⟨?_, ih h.2⟩
      intro hmem
      rcases mem_dkeys_dinsert rest k v kv.1 hmem with h' | h'
      · exact h.1 h'
      · exact hk h'

theorem dget_eq_none_iff (d : Dict) (k : String) :
    dget d k = Option.none ↔ ∀ kv ∈ d, kv.1 ≠ k := by
  induction d with
  | nil => simp [dget]
  | cons kv rest ih =>
    by_cases h : kv.1 = k
    · simp [dget, beq_iff_eq, h]
    · simp [dget, beq_iff_eq, h, ih]

theorem dget_of_mem_nodup (d : Dict) (k : String) (v : PValue)
    (hn : (dkeys d).Nodup) (hm : (k, v) ∈ d) : dget d k = some v := by
  induction d with
  | nil => simp at hm
  | cons kv rest ih =>
    rw [dkeys, List.map_cons, List.nodup_cons] at hn
    rcases List.mem_cons.mp hm with h | h
    · subst h; simp [dget]
    · have hk : kv.1 ≠ k := by
        intro he
        apply hn.1
        rw [he]
        exact List.mem_map_of_mem Prod.fst h
      rw [show dget (kv :: rest) k = dget rest k by
        simp [dget, beq_iff_eq, hk]]
      exact ih hn.2 h

theorem dinsert_eq_append (d : Dict) (k : String) (v : PValue)
    (h : ∀ kv ∈ d, kv.1 ≠ k) : dinsert d k v = d ++ [(k, v)] := by
  induction d with
  | nil => simp [dinsert]
  | cons kv rest ih =>
    have hk : kv.1 ≠ k := h kv (List.mem_cons_self kv rest)
    simp [dinsert, beq_iff_eq, hk]
    exact ih fun x hx => h x (List.mem_cons_of_mem kv hx)

theorem dget_dupdate_of_not_key (d upds : Dict) (k : String)
    (h : ∀ kv ∈ upds, kv.1 ≠ k) : dget (dupdate d upds) k = dget d k := by
  induction upds generalizing d with
  | nil => rfl
  | cons u rest ih =>
    rw [show dupdate d (u :: rest) = dupdate (dinsert d u.1 u.2) rest from rfl]
    rw [ih (dinsert d u.1 u.2) fun kv hkv => h kv (List.mem_cons_of_mem u hkv)]
    exact dget_dinsert_ne d u.1 k u.2
      fun he => h u (List.mem_cons_self u rest) he.symm

theorem dget_dupdate_mem (d upds : Dict) (k : String) (v : PValue)
    (hn : (dkeys upds).Nodup) (hm : (k, v) ∈ upds) :
    dget (dupdate d upds) k = some v := by
  induction upds generalizing d with
  | nil => simp at hm
  | cons u rest ih =>
    rw [dkeys, List.map_cons, List.nodup_cons] at hn
    rw [show dupdate d (u :: rest) = dupdate (dinsert d u.1 u.2) rest from rfl]
    rcases List.mem_cons.mp hm with h | h
    · subst h
      rw [dget_dupdate_of_not_key _ rest k ?_]
      · exact dget_dinsert_self d k v
      · intro kv hkv he
        apply hn.1
        show k ∈ List.map Prod.fst rest
        rw [← he]
        exact List.mem_map_of_mem Prod.fst hkv
    · exact ih _ hn.2 h

theorem dupdate_ne_nil (d upds : Dict) (h : d ≠ []) : dupdate d upds ≠ [] := by
  induction upds generalizing d with
  | nil => exact h
  | cons u rest ih =>
    exact ih (dinsert d u.1 u.2) (dinsert_ne_nil d u.1 u.2)

/-! ### Facts about the option table -/

theorem zone_map_snd_inj : ∀ a ∈ ZONE_OPTION_MAP, ∀ b ∈ ZONE_OPTION_MAP,
    a.2 = b.2 → a.1 = b.1 := by decide

theorem zone_map_fields_reserved : ∀ of ∈ ZONE_OPTION_MAP,
    of.2 ≠ "zone" ∧ of.2 ≠ "type" ∧ of.2 ≠ "lock-token" := by decide

/-! ### `build_payload` fold lemmas -/

theorem payload_fold_keys (attrs : String → Option PValue)
    (P : String → Prop) (entries : List (String × String)) (acc : Dict)
    (hacc : ∀ kv ∈ acc, P kv.1) (hent : ∀ of ∈ entries, P of.2) :
    ∀ kv ∈ entries.foldl (payload_step attrs) acc, P kv.1 := by
  induction entries generalizing acc with
  | nil => exact hacc
  | cons of rest ih =>
    refine ih (payload_step attrs acc of) ?_
      (fun o ho => hent o (List.mem_cons_of_mem of ho))
    intro kv hkv
    unfold payload_step at hkv
    cases hv : attrs of.1 with
    | none => rw [hv] at hkv; exact hacc kv hkv
    | some value =>
      rw [hv] at hkv
      rcases mem_dinsert _ _ _ kv hkv with h | h
      · exact hacc kv h
      · rw [h]; exact hent of (List.mem_cons_self of rest)

theorem payload_fold_nodup (attrs : String → Option PValue)
    (entries : List (String × String)) (acc : Dict)
    (hacc : (dkeys acc).Nodup) :
    (dkeys (entries.foldl (payload_step attrs) acc)).Nodup := by
  induction entries generalizing acc with
  | nil => exact hacc
  | cons of rest ih =>
    refine ih (payload_step attrs acc of) ?_
    unfold payload_step
    cases attrs of.1 with
    | none => exact hacc
    | some value => exact nodup_dkeys_dinsert _ _ _ hacc

theorem payload_fold_dget_none (attrs : String → Option PValue)
    (f : String) (entries : List (String × String)) (acc : Dict)
    (hacc : dget acc f = Option.none)
    (hent : ∀ of ∈ entries, of.2 = f → attrs of.1 = Option.none) :
    dget (entries.foldl (payload_step attrs) acc) f = Option.none := by
  induction entries generalizing acc with
  | nil => exact hacc
  | cons of rest ih =>
    refine ih (payload_step attrs acc of) ?_
      (fun o ho => hent o (List.mem_cons_of_mem of ho))
    unfold payload_step
    cases hv : attrs of.1 with
    | none => exact hacc
    | some value =>
      have hne : of.2 ≠ f := by
        intro he
        rw [hent of (List.mem_cons_self of rest) he] at hv
        exact Option.noConfusion hv
      rw [dget_dinsert_ne acc of.2 f _ (Ne.symm hne)]
      exact hacc

theorem build_payload_keys (attrs : String → Option PValue) :
    ∀ kv ∈ build_payload attrs, kv.1 ∈ ZONE_OPTION_MAP.map Prod.snd := by
  refine payload_fold_keys attrs _ ZONE_OPTION_MAP [] (by simp) ?_
  intro of hof
  exact List.mem_map_of_mem Prod.snd hof

theorem build_payload_nodup (attrs : String → Option PValue) :
    (dkeys (build_payload attrs)).Nodup :=
  payload_fold_nodup attrs ZONE_OPTION_MAP [] (by simp [dkeys])

theorem build_payload_absent (attrs : String → Option PValue)
    (o f : String) (hmem : (o, f) ∈ ZONE_OPTION_MAP)
    (h : attrs o = Option.none) :
    dget (build_payload attrs) f = Option.none := by
  refine payload_fold_dget_none attrs f ZONE_OPTION_MAP [] (by simp [dget]) ?_
  intro of hof he
  have : of.1 = o := zone_map_snd_inj of hof (o, f) hmem he
  rw [this, h]

theorem build_payload_key_not_reserved (attrs : String → Option PValue)
    (kv : String × PValue) (h : kv ∈ build_payload attrs) :
    kv.1 ≠ "zone" ∧ kv.1 ≠ "type" ∧ kv.1 ≠ "lock-token" := by
  rcases List.mem_map.mp (build_payload_keys attrs kv h) with ⟨of, hof, he⟩
  exact he ▸ zone_map_fields_reserved of hof

/-! ### `build_updates` fold lemmas -/

theorem updates_fold_of_eq (ex desired : Dict)
    (hd : ∀ kv ∈ desired, pstrOpt (dget ex kv.1) = pstr kv.2) :
    ∀ acc, desired.foldl (updates_step ex) acc = acc := by
  induction desired with
  | nil => intro acc; rfl
  | cons kv rest ih =>
    intro acc
    rw [show (kv :: rest).foldl (updates_step ex) acc
        = rest.foldl (updates_step ex) (updates_step ex acc kv) from rfl]
    rw [show updates_step ex acc kv = acc by
      unfold updates_step
      simp [hd kv (List.mem_cons_self kv rest)]]
    exact ih (fun x hx => hd x (List.mem_cons_of_mem kv hx)) acc

theorem build_updates_of_eq (ex desired : Dict)
    (hd : ∀ kv ∈ desired, pstrOpt (dget ex kv.1) = pstr kv.2) :
    build_updates ex desired = [] :=
  updates_fold_of_eq ex desired hd []

/-- The predicate `build_updates` keeps an entry by. -/
def differs (ex : Dict) (kv : String × PValue) : Bool :=
  !(pstrOpt (dget ex kv.1) == pstr kv.2)

theorem updates_fold_filter (ex desired : Dict) (acc : Dict)
    (hn : (dkeys desired).Nodup)
    (hdisj : ∀ a ∈ acc, ∀ b ∈ desired, a.1 ≠ b.1) :
    desired.foldl (updates_step ex) acc = acc ++ desired.filter (differs ex) := by
  induction desired generalizing acc with
  | nil => simp
  | cons kv rest ih =>
    rw [dkeys, List.map_cons, List.nodup_cons] at hn
    rw [show (kv :: rest).foldl (updates_step ex) acc
        = rest.foldl (updates_step ex) (updates_step ex acc kv) from rfl]
    by_cases h : pstrOpt (dget ex kv.1) = pstr kv.2
    · rw [show updates_step ex acc kv = acc by unfold updates_step; simp [h]]
      rw [ih acc hn.2 (fun a ha b hb => hdisj a ha b (List.mem_cons_of_mem kv hb))]
      congr 1
      simp [List.filter_cons, differs, h]
    · rw [show updates_step ex acc kv = acc ++ [kv] by
        unfold updates_step
        rw [if_pos h]
        exact dinsert_eq_append acc kv.1 kv.2
          fun a ha => hdisj a ha kv (List.mem_cons_self kv rest)]
      rw [ih (acc ++ [kv]) hn.2 ?_]
      · rw [show (kv :: rest).filter (differs ex)
            = kv :: rest.filter (differs ex) by
          simp [List.filter_cons, differs, h]]
        simp
      · intro a ha b hb
        rcases List.mem_append.mp ha with ha' | ha'
        · exact hdisj a ha' b (List.mem_cons_of_mem kv hb)
        · rw [List.mem_singleton.mp ha']
          intro he
          exact hn.1 (he ▸ List.mem_map_of_mem Prod.fst hb)

theorem build_updates_eq_filter (ex desired : Dict)
    (hn : (dkeys desired).Nodup) :
    build_updates ex desired = desired.filter (differs ex) := by
  rw [build_updates, updates_fold_filter ex desired [] hn (by simp)]
  simp

theorem updates_fold_dget_none (ex desired : Dict) (f : String)
    (hd : ∀ kv ∈ desired, kv.1 ≠ f) :
    ∀ acc, dget acc f = Option.none →
      dget (desired.foldl (updates_step ex) acc) f = Option.none := by
  induction desired with
  | nil => exact fun acc h => h
  | cons kv rest ih =>
    intro acc hacc
    rw [show (kv :: rest).foldl (updates_step ex) acc
        = rest.foldl (updates_step ex) (updates_step ex acc kv) from rfl]
    refine ih (fun x hx => hd x (List.mem_cons_of_mem kv hx))
      (updates_step ex acc kv) ?_
    unfold updates_step
    split
    · rw [dget_dinsert_ne acc kv.1 f kv.2
        (Ne.symm (hd kv (List.mem_cons_self kv rest)))]
      exact hacc
    · exact hacc

theorem build_updates_dget_none (ex desired : Dict) (f : String)
    (hd : ∀ kv ∈ desired, kv.1 ≠ f) :
    dget (build_updates ex desired) f = Option.none :=
  updates_fold_dget_none ex desired f hd [] (by simp [dget])

/-! ### The substring check agrees with `List.IsInfix` -/

theorem leadsWith_iff (p s : List Char) : leadsWith p s = true ↔ p <+: s := by
  induction p generalizing s with
  | nil => simp [leadsWith]
  | cons a as ih =>
    cases s with
    | nil => simp [leadsWith]
    | cons b bs => simp [leadsWith, List.cons_prefix_cons, ih, and_comm]

theorem containsSeq_iff (p s : List Char) :
    containsSeq p s = true ↔ p <:+: s := by
  induction s with
  | nil => cases p <;> simp [containsSeq]
  | cons b bs ih =>
    rw [show containsSeq p (b :: bs) = (leadsWith p (b :: bs) || containsSeq p bs)
      from rfl]
    rw [List.infix_cons_iff, Bool.or_eq_true, leadsWith_iff, ih]

theorem contains404_iff (s : String) :
    contains404 s = true ↔ "404".toList <:+: s.toList :=
  containsSeq_iff "404".toList s.toList

/-! ### Call-shape lemmas -/

theorem dget_with_lock_token_ne (lt : Option String) (d : Dict) (f : String)
    (h : f ≠ "lock-token") : dget (with_lock_token lt d) f = dget d f := by
  unfold with_lock_token
  split
  · exact dget_dinsert_ne d "lock-token" f _ h
  · rfl

theorem dget_with_lock_token_self (lt : Option String) (d : Dict)
    (h : truthyStr lt = true) :
    dget (with_lock_token lt d) "lock-token" = some (.str (lt.getD "")) := by
  unfold with_lock_token
  rw [if_pos h]
  exact dget_dinsert_self d "lock-token" _

theorem with_lock_token_skip (lt : Option String) (d : Dict)
    (h : truthyStr lt = false) : with_lock_token lt d = d := by
  unfold with_lock_token
  rw [h]
  rfl

/-- Every call issued by `ensure_present` is the create call with the
constructed create payload, or the update call on the zone with the
lock-extended update set for some observed dict. -/
theorem ensure_present_calls (p : Params) (api : Api) (c : ApiCall)
    (hc : c ∈ (ensure_present p api).1) :
    c = .create (create_payload_of p) ∨
    ∃ ez, c = .update p.zone
      (with_lock_token p.lock_token (build_updates ez (build_payload p.attrs))) := by
  rcases hg : get_zone p.zone api.fetch1 with e | oz
  · simp [ensure_present, hg] at hc
  · by_cases hz : truthyZone oz
    · by_cases hty : (truthyStr p.type &&
          !(pstrOpt (dget (oz.getD []) "type") == p.type.getD "")) = true
      · simp [ensure_present, hg, hz, hty] at hc
      · by_cases hup :
            (build_updates (oz.getD []) (build_payload p.attrs)).isEmpty
        · simp [ensure_present, hg, hz, hty, hup] at hc
        · by_cases hcm : p.check_mode
          · simp [ensure_present, hg, hz, hty, hup, hcm] at hc
          · rcases hur : api.updateResult with e1 | u
            · simp [ensure_present, hg, hz, hty, hup, hcm, hur] at hc
              exact Or.inr ⟨_, hc⟩
            · rcases hf2 : get_zone p.zone api.fetch2 with e2 | nz
              · simp [ensure_present, hg, hz, hty, hup, hcm, hur, hf2] at hc
                exact Or.inr ⟨_, hc⟩
              · simp [ensure_present, hg, hz, hty, hup, hcm, hur, hf2] at hc
                exact Or.inr ⟨_, hc⟩
    · by_cases hcm : p.check_mode
      · simp [ensure_present, hg, hz, hcm] at hc
      · rcases hcr : api.createResult with e1 | u
        · simp [ensure_present, hg, hz, hcm, hcr] at hc
          exact Or.inl hc
        · rcases hf2 : get_zone p.zone api.fetch2 with e2 | nz
          · simp [ensure_present, hg, hz, hcm, hcr, hf2] at hc
            exact Or.inl hc
          · simp [ensure_present, hg, hz, hcm, hcr, hf2] at hc
            exact Or.inl hc

/-- Every call issued by `ensure_absent` is the delete call on the zone
with the lock-token keyword dict. -/
theorem ensure_absent_calls (p : Params) (api : Api) (c : ApiCall)
    (hc : c ∈ (ensure_absent p api).1) :
    c = .delete p.zone (with_lock_token p.lock_token []) := by
  rcases hg : get_zone p.zone api.fetch1 with e | oz
  · simp [ensure_absent, hg] at hc
  · by_cases hz : truthyZone oz
    · by_cases hcm : p.check_mode
      · simp [ensure_absent, hg, hz, hcm] at hc
      · rcases hdr : api.deleteResult with e1 | u
        · simp [ensure_absent, hg, hz, hcm, hdr] at hc
          exact hc
        · simp [ensure_absent, hg, hz, hcm, hdr] at hc
          exact hc
    · simp [ensure_absent, hg, hz] at hc

/-- Every call issued by `main_run` comes from the dispatched
`ensure_*` run or is the single apply call. -/
theorem main_run_mem (p : Params) (state : String) (api : Api) (c : ApiCall)
    (hc : c ∈ (main_run p state api).1) :
    c ∈ (if state == "present" then ensure_present p api
         else ensure_absent p api).1 ∨ c = .applySdn := by
  rcases he : (if state == "present" then ensure_present p api
      else ensure_absent p api) with ⟨calls, r⟩
  rcases r with e | ⟨changed, zone_data, message⟩
  · have hm : (main_run p state api).1 = calls := by
      unfold main_run
      rw [he]
    rw [hm] at hc
    exact Or.inl hc
  · by_cases hch : changed = true
    · rcases hap : apply_sdn_configuration api.applyResult p.check_mode
        with ⟨calls2, r2⟩
      have h2 : calls2 = [] ∨ calls2 = [ApiCall.applySdn] := by
        unfold apply_sdn_configuration at hap
        by_cases hcm : p.check_mode
        · rw [if_pos hcm] at hap
          injection hap with h1 h2
          exact Or.inl h1.symm
        · rw [if_neg hcm] at hap
          rcases har : api.applyResult with e1 | u <;> rw [har] at hap <;>
            injection hap with h1 h2 <;> exact Or.inr h1.symm
      have hcalls : (main_run p state api).1 = calls ++ calls2 := by
        unfold main_run
        rw [he]
        simp only [hch, if_true]
        rw [hap]
        rcases r2 with e2 | ap <;> rfl
      rw [hcalls] at hc
      rcases List.mem_append.mp hc with h | h
      · exact Or.inl h
      · rcases h2 with h2 | h2
        · rw [h2] at h
          simp at h
        · rw [h2] at h
          exact Or.inr (List.mem_singleton.mp h)
    · have hm : (main_run p state api).1 = calls := by
        unfold main_run
        rw [he]
        simp [hch]
      rw [hm] at hc
      exact Or.inl hc

/-- Whether an API call mutates state (create/update/delete, as opposed
to the commit of pending configuration). -/
def isMutating : ApiCall → Bool
  | .applySdn => false
  | _ => true

/-- In check mode `ensure_present` issues no call. -/
theorem ensure_present_check_calls (p : Params) (api : Api)
    (hcm : p.check_mode = true) : (ensure_present p api).1 = [] := by
  rcases hg : get_zone p.zone api.fetch1 with e | oz
  · simp [ensure_present, hg]
  · by_cases hz : truthyZone oz
    · by_cases hty : (truthyStr p.type &&
          !(pstrOpt (dget (oz.getD []) "type") == p.type.getD "")) = true
      · simp [ensure_present, hg, hz, hty]
      · by_cases hup :
            (build_updates (oz.getD []) (build_payload p.attrs)).isEmpty
        · simp [ensure_present, hg, hz, hty, hup]
        · simp [ensure_present, hg, hz, hty, hup, hcm]
    · simp [ensure_present, hg, hz, hcm]

/-- In check mode `ensure_absent` issues no call. -/
theorem ensure_absent_check_calls (p : Params) (api : Api)
    (hcm : p.check_mode = true) : (ensure_absent p api).1 = [] := by
  rcases hg : get_zone p.zone api.fetch1 with e | oz
  · simp [ensure_absent, hg]
  · by_cases hz : truthyZone oz
    · simp [ensure_absent, hg, hz, hcm]
    · simp [ensure_absent, hg, hz]

/-- Extract the changed flag from an `Except.ok` triple equation. -/
theorem ok_triple_changed {b ch : Bool} {x zd : Option Dict} {s m : String}
    (h : (Except.ok (b, x, s) : Except String (Bool × Option Dict × String))
      = .ok (ch, zd, m)) : b = ch := by
  injection h with h'
  exact congrArg (fun t => t.1) h'

/-- The changed flag reported by a check-mode `ensure_present` run
equals whether the same run without check mode issues a mutating
call. -/
theorem ensure_present_changed_calls (p : Params) (api : Api)
    (hcm : p.check_mode = true) (ch : Bool) (zd : Option Dict) (m : String)
    (hr : (ensure_present p api).2 = .ok (ch, zd, m)) :
    ch = ((ensure_present { p with check_mode := false } api).1.any
      isMutating) := by
  rcases hg : get_zone p.zone api.fetch1 with e | oz
  · simp [ensure_present, hg] at hr
  · by_cases hz : truthyZone oz
    · by_cases hty : (truthyStr p.type &&
          !(pstrOpt (dget (oz.getD []) "type") == p.type.getD "")) = true
      · simp [ensure_present, hg, hz, hty] at hr
      · by_cases hup :
            (build_updates (oz.getD []) (build_payload p.attrs)).isEmpty
        · have hval : (ensure_present p api).2
              = .ok (false, some (oz.getD []),
                "SDN zone \x27" ++ p.zone ++ "\x27 already present.") := by
            simp [ensure_present, hg, hz, hty, hup]
          rw [hval] at hr
          rw [← ok_triple_changed hr]
          simp [ensure_present, hg, hz, hty, hup]
        · have hval : (ensure_present p api).2
              = .ok (true, some (oz.getD []),
                "SDN zone \x27" ++ p.zone ++ "\x27 would be updated (check mode).") := by
            simp [ensure_present, hg, hz, hty, hup, hcm]
          rw [hval] at hr
          rw [← ok_triple_changed hr]
          rcases hur : api.updateResult with e1 | u
          · simp [ensure_present, hg, hz, hty, hup, hur, isMutating]
          · rcases hf2 : get_zone p.zone api.fetch2 with e2 | nz
            · simp [ensure_present, hg, hz, hty, hup, hur, hf2, isMutating]
            · simp [ensure_present, hg, hz, hty, hup, hur, hf2, isMutating]
    · have hval : (ensure_present p api).2
          = .ok (true, some (create_payload_of p),
            "SDN zone \x27" ++ p.zone ++ "\x27 would be created (check mode).") := by
        simp [ensure_present, hg, hz, hcm]
      rw [hval] at hr
      rw [← ok_triple_changed hr]
      rcases hcr : api.createResult with e1 | u
      · simp [ensure_present, hg, hz, hcr, isMutating]
      · rcases hf2 : get_zone p.zone api.fetch2 with e2 | nz
        · simp [ensure_present, hg, hz, hcr, hf2, isMutating]
        · simp [ensure_present, hg, hz, hcr, hf2, isMutating]

/-- The changed flag reported by a check-mode `ensure_absent` run
equals whether the same run without check mode issues a mutating
call. -/
theorem ensure_absent_changed_calls (p : Params) (api : Api)
    (hcm : p.check_mode = true) (ch : Bool) (zd : Option Dict) (m : String)
    (hr : (ensure_absent p api).2 = .ok (ch, zd, m)) :
    ch = ((ensure_absent { p with check_mode := false } api).1.any
      isMutating) := by
  rcases hg : get_zone p.zone api.fetch1 with e | oz
  · simp [ensure_absent, hg] at hr
  · by_cases hz : truthyZone oz
    · have hval : (ensure_absent p api).2
          = .ok (true, oz,
            "SDN zone \x27" ++ p.zone ++ "\x27 would be removed (check mode).") := by
        simp [ensure_absent, hg, hz, hcm]
      rw [hval] at hr
      rw [← ok_triple_changed hr]
      rcases hdr : api.deleteResult with e1 | u
      · simp [ensure_absent, hg, hz, hdr, isMutating]
      · simp [ensure_absent, hg, hz, hdr, isMutating]
    · have hval : (ensure_absent p api).2
          = .ok (false, Option.none,
            "SDN zone \x27" ++ p.zone ++ "\x27 already absent.") := by
        simp [ensure_absent, hg, hz]
      rw [hval] at hr
      rw [← ok_triple_changed hr]
      simp [ensure_absent, hg, hz]

/-- The apply step contributes an empty or singleton call list. -/
theorem apply_calls_cases (r : Except String Unit) (cm : Bool) :
    (apply_sdn_configuration r cm).1 = [] ∨
    (apply_sdn_configuration r cm).1 = [.applySdn] := by
  unfold apply_sdn_configuration
  by_cases hcm : cm = true
  · rw [if_pos hcm]
    exact Or.inl rfl
  · rw [if_neg hcm]
    rcases r with e | u
    · exact Or.inr rfl
    · exact Or.inr rfl

/-- The apply call is not mutating, so whether a run issued a mutating
call is decided by its `ensure_*` part alone. -/
theorem main_run_any_mutating (q : Params) (state : String) (api : Api) :
    ((main_run q state api).1.any isMutating)
      = ((if state == "present" then ensure_present q api
          else ensure_absent q api).1.any isMutating) := by
  rcases he : (if state == "present" then ensure_present q api
      else ensure_absent q api) with ⟨calls, r⟩
  rcases r with e | ⟨ch, zd, m⟩
  · have h1 : main_run q state api = (calls, .error e) := by
      unfold main_run
      rw [he]
    rw [h1]
  · by_cases hch : ch = true
    · have h1 : (main_run q state api).1
          = calls ++ (apply_sdn_configuration api.applyResult q.check_mode).1 := by
        unfold main_run
        rw [he]
        simp only [hch, if_true]
        rcases hap : apply_sdn_configuration api.applyResult q.check_mode
          with ⟨calls2, r2⟩
        rcases r2 with e2 | ap <;> rfl
      rw [h1, List.any_append]
      rcases apply_calls_cases api.applyResult q.check_mode with h2 | h2 <;>
        rw [h2] <;> simp [isMutating]
    · have h1 : (main_run q state api).1 = calls := by
        unfold main_run
        rw [he]
        simp [hch]
      rw [h1]

/-! ### A faithful server for the idempotence claim -/

/-- How a server that persists exactly what it is sent evolves under a
mutating call: create stores the payload, update assigns the update
entries into the stored dict, delete removes the zone, the apply call
leaves the zone unchanged. -/
def server_step (s : Option Dict) : ApiCall → Option Dict
  | .create pl => some pl
  | .update _ pl => some (dupdate (s.getD []) pl)
  | .delete _ _ => Option.none
  | .applySdn => s

/-- Run a list of calls against the faithful server. -/
def server_run (s : Option Dict) (calls : List ApiCall) : Option Dict :=
  calls.foldl server_step s

/-- The fetch outcome such a server produces: a 404
`ResourceException` when the zone is absent, the stored dict
otherwise. -/
def mk_fetch : Option Dict → FetchResult
  | Option.none => .resourceExc ⟨some 404, "404 Not Found"⟩
  | some d => .ok d

theorem get_zone_mk_fetch (z : String) (s : Option Dict) :
    get_zone z (mk_fetch s) = .ok s := by
  cases s <;> rfl

theorem mem_dinsert_of_mem_ne (d : Dict) (k : String) (v : PValue)
    (kv : String × PValue) (h : kv ∈ d) (hne : kv.1 ≠ k) :
    kv ∈ dinsert d k v := by
  induction d with
  | nil => simp at h
  | cons x rest ih =>
    by_cases hx : x.1 = k
    · rw [show dinsert (x :: rest) k v = (k, v) :: rest by
        simp [dinsert, beq_iff_eq, hx]]
      rcases List.mem_cons.mp h with h' | h'
      · exact absurd (h' ▸ hx) hne
      · exact List.mem_cons_of_mem _ h'
    · rw [show dinsert (x :: rest) k v = x :: dinsert rest k v by
        simp [dinsert, beq_iff_eq, hx]]
      rcases List.mem_cons.mp h with h' | h'
      · exact h' ▸ List.mem_cons_self x _
      · exact List.mem_cons_of_mem _ (ih h')

theorem nodup_key_unique (l : Dict) (hn : (dkeys l).Nodup)
    (a b : String × PValue) (ha : a ∈ l) (hb : b ∈ l) (he : a.1 = b.1) :
    a = b := by
  induction l with
  | nil => simp at ha
  | cons x rest ih =>
    rw [dkeys, List.map_cons, List.nodup_cons] at hn
    rcases List.mem_cons.mp ha with ha' | ha' <;>
      rcases List.mem_cons.mp hb with hb' | hb'
    · rw [ha', hb']
    · exfalso
      apply hn.1
      rw [← ha', he]
      exact List.mem_map_of_mem Prod.fst hb'
    · exfalso
      apply hn.1
      rw [← hb', ← he]
      exact List.mem_map_of_mem Prod.fst ha'
    · exact ih hn.2 ha' hb'

/-! ### Claims -/

/-- C10: during a fetch, the zone is reported absent (the run returns no
state instead of failing) exactly when the raised `ResourceException`
carries status code 404 or its `str()` text contains the substring
`"404"`; a non-404 `ResourceException` without that substring and any
other exception are fatal; and in particular a `ResourceException` with
status code 500 whose text merely mentions "404" is treated as valid
absent state. -/
theorem C10_get_zone_absent_classification :
    (∀ (z : String) (e : ResourceExc),
      get_zone z (.resourceExc e) = .ok Option.none ↔
        (e.status_code = some 404 ∨ "404".toList <:+: e.text.toList)) ∧
    (∀ (z : String) (e : ResourceExc),
      e.status_code ≠ some 404 → ¬ ("404".toList <:+: e.text.toList) →
        get_zone z (.resourceExc e)
          = .error ("Failed to retrieve SDN zone \x27" ++ z ++ "\x27: " ++ e.text)) ∧
    (∀ (z t : String),
      get_zone z (.otherExc t)
        = .error ("Failed to retrieve SDN zone \x27" ++ z ++ "\x27: " ++ t)) ∧
    get_zone "myzone" (.resourceExc ⟨some 500, "server error, see RFC 404"⟩)
      = .ok Option.none := by
  refine ⟨?_, ?_, fun z t => rfl, by rfl⟩
  · intro z e
    rw [get_zone]
    by_cases h : e.status_code = some 404 ∨ "404".toList <:+: e.text.toList
    · rw [if_pos ?_]
      · exact iff_of_true rfl h
      · rcases h with h | h
        · simp [h]
        · rw [Bool.or_eq_true]
          exact Or.inr ((contains404_iff e.text).mpr h)
    · rw [if_neg ?_]
      · constructor
        · intro he
          exact Except.noConfusion he
        · intro hc
          exact absurd hc h
      · rw [Bool.or_eq_true]
        push_neg at h
        intro hor
        rcases hor with hc | hc
        · exact h.1 (by simpa using hc)
        · exact h.2 ((contains404_iff e.text).mp hc)
  · intro z e h1 h2
    rw [get_zone, if_neg ?_]
    rw [Bool.or_eq_true]
    intro hor
    rcases hor with hc | hc
    · exact h1 (by simpa using hc)
    · exact h2 ((contains404_iff e.text).mp hc)

/-- Witness for C10: concrete instances of each hypothesis-bearing
conjunct. -/
theorem C10_witness :
    get_zone "z" (.resourceExc ⟨some 403, "forbidden"⟩)
      = .error "Failed to retrieve SDN zone \x27z\x27: forbidden" := by
  refine C10_get_zone_absent_classification.2.1 "z" ⟨some 403, "forbidden"⟩
    (by simp) ?_
  rw [← contains404_iff]
  decide

/-- C3: an attribute absent from the desired spec (its module parameter
is `None`) never appears in any create or update payload issued by a
run, whatever the observed state, target state and check mode. -/
theorem C3_sparse_semantics (p : Params) (state : String) (api : Api)
    (o f : String) (hmap : (o, f) ∈ ZONE_OPTION_MAP)
    (habs : p.attrs o = Option.none) :
    ∀ c ∈ (main_run p state api).1,
      (∀ pl, c = .create pl → dget pl f = Option.none) ∧
      (∀ z pl, c = .update z pl → dget pl f = Option.none) := by
  have hres := zone_map_fields_reserved (o, f) hmap
  have hbp : dget (build_payload p.attrs) f = Option.none :=
    build_payload_absent p.attrs o f hmap habs
  intro c hc
  rcases main_run_mem p state api c hc with h | h
  · by_cases hs : (state == "present") = true
    · rw [if_pos hs] at h
      rcases ensure_present_calls p api c h with h' | ⟨ez, h'⟩
      · constructor
        · intro pl he
          rw [h'] at he
          injection he with hpl
          rw [← hpl]
          rw [create_payload_of, dget_with_lock_token_ne _ _ _ hres.2.2]
          rw [dget_dinsert_ne _ _ _ _ hres.2.1, dget_dinsert_ne _ _ _ _ hres.1]
          exact hbp
        · intro z pl he
          rw [h'] at he
          exact ApiCall.noConfusion he
      · constructor
        · intro pl he
          rw [h'] at he
          exact ApiCall.noConfusion he
        · intro z pl he
          rw [h'] at he
          injection he with hz hpl
          rw [← hpl, dget_with_lock_token_ne _ _ _ hres.2.2]
          exact build_updates_dget_none _ _ f ((dget_eq_none_iff _ f).mp hbp)
    · rw [if_neg hs] at h
      have h' := ensure_absent_calls p api c h
      exact ⟨fun pl he => ApiCall.noConfusion (h' ▸ he),
        fun z pl he => ApiCall.noConfusion (h' ▸ he)⟩
  · exact ⟨fun pl he => ApiCall.noConfusion (h ▸ he),
      fun z pl he => ApiCall.noConfusion (h ▸ he)⟩

/-- Witness for C3: with only `mtu` desired and `bridge` absent, a
concrete run issues an update whose payload lacks `bridge`. -/
theorem C3_witness : dget [("mtu", PValue.int 1400)] "bridge" = Option.none := by
  refine (C3_sparse_semantics
    ⟨"w", some "vlan", Option.none,
      (fun o => if o == "mtu" then some (.int 1400) else Option.none), false⟩
    "present"
    ⟨.ok [("zone", .str "w"), ("type", .str "vlan"), ("mtu", .int 1)],
      .ok (), .ok (), .ok (), .ok (), .ok []⟩
    "bridge" "bridge" (by decide) rfl
    (.update "w" [("mtu", PValue.int 1400)]) (by decide)).2 "w" _ rfl

/-- C4: when the zone exists and a supplied (truthy) backend type
differs as strings from the observed one, `ensure_present` fails with
the conflict message and issues no call, in check mode and real mode
alike; and, for every run whatsoever, no update payload ever contains
the `"type"` field. -/
theorem C4_type_conflict_fatal (p : Params) (api : Api) (obs : Dict)
    (t : String) (hfetch : api.fetch1 = .ok obs) (hne : obs ≠ [])
    (ht : p.type = some t) (htne : t ≠ "")
    (hmm : pstrOpt (dget obs "type") ≠ t) :
    ensure_present p api =
      ([], .error ("SDN zone \x27" ++ p.zone ++
        "\x27 already exists with type \x27" ++ pstrOpt (dget obs "type") ++
        "\x27 which does not match the requested type \x27" ++ t ++ "\x27")) ∧
    (∀ (q : Params) (state : String) (api' : Api) (c : ApiCall)
        (z : String) (pl : Dict),
      c ∈ (main_run q state api').1 → c = .update z pl →
        dget pl "type" = Option.none) := by
  constructor
  · have hobs : obs.isEmpty = false := by
      cases obs with
      | nil => exact absurd rfl hne
      | cons kv rest => rfl
    have hbeq : (pstrOpt (dget obs "type") == t) = false := by
      simp [hmm]
    simp [ensure_present, hfetch, get_zone, truthyZone, hobs, ht, htne, hbeq,
      truthyStr]
  · intro q state api' c z pl hc he
    rcases main_run_mem q state api' c hc with h | h
    · by_cases hs : (state == "present") = true
      · rw [if_pos hs] at h
        rcases ensure_present_calls q api' c h with h' | ⟨ez, h'⟩
        · rw [h'] at he
          exact ApiCall.noConfusion he
        · rw [h'] at he
          injection he with hz hpl
          rw [← hpl, dget_with_lock_token_ne _ _ _ (by decide)]
          refine build_updates_dget_none _ _ "type" ?_
          intro kv hkv
          exact (build_payload_key_not_reserved q.attrs kv hkv).2.1
      · rw [if_neg hs] at h
        rw [ensure_absent_calls q api' c h] at he
        exact ApiCall.noConfusion he
    · rw [h] at he
      exact ApiCall.noConfusion he

/-- Witness for C4: requesting type `vlan` for a zone observed with
type `evpn` fails with the conflict message and no calls, here in real
(non-check) mode. -/
theorem C4_witness :
    ensure_present
      ⟨"w", some "vlan", Option.none, (fun _ => Option.none), false⟩
      ⟨.ok [("zone", .str "w"), ("type", .str "evpn")],
        .ok (), .ok (), .ok (), .ok (), .ok []⟩ =
      ([], .error ("SDN zone \x27w\x27 already exists with type \x27evpn\x27"
        ++ " which does not match the requested type \x27vlan\x27")) := by
  exact (C4_type_conflict_fatal _ _
    [("zone", .str "w"), ("type", .str "evpn")] "vlan" rfl (by simp) rfl
    (by decide) (by decide)).1

/-- C9 counterexample: a lock token that is present in the input but
empty (`lock_token = some ""`) is not forwarded — the create call of a
concrete run carries no `lock-token` field, contradicting the claim
that a present lock token is always merged into the create payload. -/
theorem C9_counterexample :
    (Params.lock_token
      ⟨"w", some "vlan", some "", (fun _ => Option.none), false⟩ = some "") ∧
    (ensure_present
      ⟨"w", some "vlan", some "", (fun _ => Option.none), false⟩
      ⟨.resourceExc ⟨some 404, "not found"⟩,
        .ok (), .ok (), .ok (), .ok (), .ok []⟩).1
      = [.create [("zone", .str "w"), ("type", .str "vlan")]] ∧
    dget [("zone", PValue.str "w"), ("type", PValue.str "vlan")] "lock-token"
      = Option.none :=
  ⟨rfl, by decide, by decide⟩

/-- C9 (amended): whenever a non-empty lock token is supplied it is
forwarded verbatim in every create, update and delete call of the run;
when the lock token is not truthy (absent or empty) no call carries a
`lock-token` field. -/
theorem C9_lock_token_forwarding (p : Params) (state : String) (api : Api) :
    (∀ t, p.lock_token = some t → t ≠ "" →
      ∀ c ∈ (main_run p state api).1,
        (∀ pl, c = .create pl → dget pl "lock-token" = some (.str t)) ∧
        (∀ z pl, c = .update z pl → dget pl "lock-token" = some (.str t)) ∧
        (∀ z kw, c = .delete z kw → dget kw "lock-token" = some (.str t))) ∧
    (truthyStr p.lock_token = false →
      ∀ c ∈ (main_run p state api).1,
        (∀ pl, c = .create pl → dget pl "lock-token" = Option.none) ∧
        (∀ z pl, c = .update z pl → dget pl "lock-token" = Option.none) ∧
        (∀ z kw, c = .delete z kw → dget kw "lock-token" = Option.none)) := by
  constructor
  · intro t ht htne c hc
    have htr : truthyStr p.lock_token = true := by simp [truthyStr, ht, htne]
    have hval : p.lock_token.getD "" = t := by rw [ht]; rfl
    rcases main_run_mem p state api c hc with h | h
    · by_cases hs : (state == "present") = true
      · rw [if_pos hs] at h
        rcases ensure_present_calls p api c h with h' | ⟨ez, h'⟩
        · refine ⟨?_, fun z pl he => ApiCall.noConfusion (h' ▸ he),
            fun z kw he => ApiCall.noConfusion (h' ▸ he)⟩
          intro pl he
          rw [h'] at he
          injection he with hpl
          rw [← hpl, create_payload_of, dget_with_lock_token_self _ _ htr, hval]
        · refine ⟨fun pl he => ApiCall.noConfusion (h' ▸ he), ?_,
            fun z kw he => ApiCall.noConfusion (h' ▸ he)⟩
          intro z pl he
          rw [h'] at he
          injection he with hz hpl
          rw [← hpl, dget_with_lock_token_self _ _ htr, hval]
      · rw [if_neg hs] at h
        have h' := ensure_absent_calls p api c h
        refine ⟨fun pl he => ApiCall.noConfusion (h' ▸ he),
          fun z pl he => ApiCall.noConfusion (h' ▸ he), ?_⟩
        intro z kw he
        rw [h'] at he
        injection he with hz hkw
        rw [← hkw, dget_with_lock_token_self _ _ htr, hval]
    · exact ⟨fun pl he => ApiCall.noConfusion (h ▸ he),
        fun z pl he => ApiCall.noConfusion (h ▸ he),
        fun z kw he => ApiCall.noConfusion (h ▸ he)⟩
  · intro hfalse c hc
    have hbp : dget (build_payload p.attrs) "lock-token" = Option.none := by
      refine (dget_eq_none_iff _ _).mpr ?_
      intro kv hkv
      exact (build_payload_key_not_reserved p.attrs kv hkv).2.2
    rcases main_run_mem p state api c hc with h | h
    · by_cases hs : (state == "present") = true
      · rw [if_pos hs] at h
        rcases ensure_present_calls p api c h with h' | ⟨ez, h'⟩
        · refine ⟨?_, fun z pl he => ApiCall.noConfusion (h' ▸ he),
            fun z kw he => ApiCall.noConfusion (h' ▸ he)⟩
          intro pl he
          rw [h'] at he
          injection he with hpl
          rw [← hpl, create_payload_of, with_lock_token_skip _ _ hfalse]
          rw [dget_dinsert_ne _ _ _ _ (by decide),
            dget_dinsert_ne _ _ _ _ (by decide)]
          exact hbp
        · refine ⟨fun pl he => ApiCall.noConfusion (h' ▸ he), ?_,
            fun z kw he => ApiCall.noConfusion (h' ▸ he)⟩
          intro z pl he
          rw [h'] at he
          injection he with hz hpl
          rw [← hpl, with_lock_token_skip _ _ hfalse]
          exact build_updates_dget_none _ _ _
            ((dget_eq_none_iff _ _).mp hbp)
      · rw [if_neg hs] at h
        have h' := ensure_absent_calls p api c h
        refine ⟨fun pl he => ApiCall.noConfusion (h' ▸ he),
          fun z pl he => ApiCall.noConfusion (h' ▸ he), ?_⟩
        intro z kw he
        rw [h'] at he
        injection he with hz hkw
        rw [← hkw, with_lock_token_skip _ _ hfalse]
        rfl
    · exact ⟨fun pl he => ApiCall.noConfusion (h ▸ he),
        fun z pl he => ApiCall.noConfusion (h ▸ he),
        fun z kw he => ApiCall.noConfusion (h ▸ he)⟩

/-- Witness for C9: a concrete delete run with lock token `"tok"`
forwards it in the keyword dict of the delete call. -/
theorem C9_witness :
    dget [("lock-token", PValue.str "tok")] "lock-token"
      = some (PValue.str "tok") := by
  refine ((C9_lock_token_forwarding
    ⟨"w", Option.none, some "tok", (fun _ => Option.none), false⟩
    "absent"
    ⟨.ok [("zone", .str "w"), ("type", .str "vlan")],
      .ok (), .ok (), .ok (), .ok (), .ok []⟩).1
    "tok" rfl (by decide)
    (.delete "w" [("lock-token", PValue.str "tok")]) (by decide)).2.2
    "w" _ rfl

/-- C1 counterexample: with desired `bridge = "None"` and an observed
zone that has no `bridge` field, the claim says the update set must
contain `bridge` (missing observed field counts as different), but
`build_updates` compares `str(None) = "None"` equal to the desired
string and produces an empty update set — and the run issues no update
call at all. -/
theorem C1_counterexample :
    dget [("zone", PValue.str "w"), ("type", PValue.str "vlan")] "bridge"
      = Option.none ∧
    dget (build_payload
        (fun o => if o == "bridge" then some (.str "None") else Option.none))
      "bridge" = some (.str "None") ∧
    build_updates [("zone", PValue.str "w"), ("type", PValue.str "vlan")]
      (build_payload
        (fun o => if o == "bridge" then some (.str "None") else Option.none))
      = [] ∧
    (ensure_present
      ⟨"w", some "vlan", Option.none,
        (fun o => if o == "bridge" then some (.str "None") else Option.none),
        false⟩
      ⟨.ok [("zone", .str "w"), ("type", .str "vlan")],
        .ok (), .ok (), .ok (), .ok (), .ok []⟩).1 = [] :=
  ⟨rfl, by decide, by decide, by decide⟩

/-- C1 (amended): for an existing zone with no type conflict, the
update set is exactly the sublist of the desired payload whose entries
differ from the observed value in canonical string form, a missing
observed field being read as the canonical string `"None"`; and when
this set is non-empty and check mode is off, the update call is issued
exactly once with exactly this set, extended by the lock token when
truthy — never with the full desired payload. -/
theorem C1_update_set_exact (p : Params) (api : Api) (obs : Dict)
    (hfetch : api.fetch1 = .ok obs) (hne : obs ≠ [])
    (hcm : p.check_mode = false)
    (htype : (truthyStr p.type &&
      !(pstrOpt (dget obs "type") == p.type.getD "")) = false)
    (hup : build_updates obs (build_payload p.attrs) ≠ []) :
    build_updates obs (build_payload p.attrs)
      = (build_payload p.attrs).filter (differs obs) ∧
    (ensure_present p api).1
      = [.update p.zone (with_lock_token p.lock_token
          (build_updates obs (build_payload p.attrs)))] := by
  refine ⟨build_updates_eq_filter obs _ (build_payload_nodup p.attrs), ?_⟩
  have hobs : obs.isEmpty = false := by
    cases obs with
    | nil => exact absurd rfl hne
    | cons kv rest => rfl
  have hupe : (build_updates obs (build_payload p.attrs)).isEmpty = false := by
    rcases hbu : build_updates obs (build_payload p.attrs) with _ | ⟨a, l⟩
    · exact absurd hbu hup
    · rfl
  have hg1 : get_zone p.zone api.fetch1 = .ok (some obs) := by
    rw [hfetch]
    rfl
  rcases hur : api.updateResult with e1 | u
  · simp [ensure_present, hg1, truthyZone, hobs, htype, hcm, hupe, hur]
  · rcases hf2 : get_zone p.zone api.fetch2 with e2 | nz
    · simp [ensure_present, hg1, truthyZone, hobs, htype, hcm, hupe, hur, hf2]
    · simp [ensure_present, hg1, truthyZone, hobs, htype, hcm, hupe, hur, hf2]

/-- Observed state for the C1 witness scenario. -/
def c1obs : Dict :=
  [("zone", .str "w"), ("type", .str "vlan"),
   ("mtu", .int 1400), ("controller", .str "frr01")]

/-- Desired attributes for the C1 witness scenario. -/
def c1attrs : String → Option PValue := fun o =>
  if o == "mtu" then some (.int 1500)
  else if o == "controller" then some (.str "frr01")
  else Option.none

/-- Parameters for the C1 witness scenario. -/
def c1p : Params := ⟨"w", some "vlan", Option.none, c1attrs, false⟩

/-- Transport responses for the C1 witness scenario. -/
def c1api : Api := ⟨.ok c1obs, .ok (), .ok (), .ok (), .ok (), .ok []⟩

/-- Witness for C1: desired `mtu = 1500`, `controller = "frr01"` against
an observed zone with `mtu = 1400`, `controller = "frr01"`: the update
set is exactly the differing sublist and the update call carries
exactly it. -/
theorem C1_witness :
    build_updates c1obs (build_payload c1attrs)
      = (build_payload c1attrs).filter (differs c1obs) ∧
    (ensure_present c1p c1api).1
      = [.update "w" (with_lock_token Option.none
          (build_updates c1obs (build_payload c1attrs)))] :=
  C1_update_set_exact c1p c1api c1obs rfl (by decide) rfl (by decide)
    (by decide)

/-- C5: with check mode on, no create, update, delete or commit call is
ever issued, and when the run succeeds, its changed flag equals whether
the same run without check mode would issue a mutating
(create/update/delete) call. -/
theorem C5_dry_run_purity (p : Params) (state : String) (api : Api)
    (hcm : p.check_mode = true) :
    (main_run p state api).1 = [] ∧
    ∀ res, (main_run p state api).2 = .ok res →
      res.changed
        = ((main_run { p with check_mode := false } state api).1.any
          isMutating) := by
  rcases he : (if state == "present" then ensure_present p api
      else ensure_absent p api) with ⟨calls, r⟩
  have hcalls : calls = [] := by
    by_cases hs : (state == "present") = true
    · rw [if_pos hs] at he
      have h' := congrArg Prod.fst he
      rw [ensure_present_check_calls p api hcm] at h'
      exact h'.symm
    · rw [if_neg hs] at he
      have h' := congrArg Prod.fst he
      rw [ensure_absent_check_calls p api hcm] at h'
      exact h'.symm
  rcases r with e | ⟨ch, zd, m⟩
  · have h1 : main_run p state api = (calls, .error e) := by
      unfold main_run
      rw [he]
    refine ⟨by rw [h1]; exact hcalls, ?_⟩
    intro res hres
    rw [h1] at hres
    simp at hres
  · have hch2 : ch = ((main_run { p with check_mode := false } state api).1.any
        isMutating) := by
      rw [main_run_any_mutating]
      by_cases hs : (state == "present") = true
      · rw [if_pos hs] at he ⊢
        exact ensure_present_changed_calls p api hcm ch zd m
          (congrArg Prod.snd he)
      · rw [if_neg hs] at he ⊢
        exact ensure_absent_changed_calls p api hcm ch zd m
          (congrArg Prod.snd he)
    by_cases hch : ch = true
    · have hap : apply_sdn_configuration api.applyResult p.check_mode
          = ([], .ok false) := by
        rw [hcm]
        rfl
      have h1 : main_run p state api = (calls ++ [], .ok ⟨true, m, zd, false⟩) := by
        unfold main_run
        rw [he]
        simp only [hch, if_true]
        rw [hap]
      refine ⟨by rw [h1]; simp [hcalls], ?_⟩
      intro res hres
      rw [h1] at hres
      injection hres with h'
      rw [← h']
      show true = _
      rw [← hch2, hch]
    · have hchf : ch = false := by
        cases ch
        · rfl
        · exact absurd rfl hch
      have h1 : main_run p state api = (calls, .ok ⟨ch, m, zd, false⟩) := by
        unfold main_run
        rw [he]
        simp [hchf]
      refine ⟨by rw [h1]; exact hcalls, ?_⟩
      intro res hres
      rw [h1] at hres
      injection hres with h'
      rw [← h']
      show ch = _
      exact hch2

/-- Witness for C5: a check-mode create prediction issues no call and
reports the change a real run would make. -/
theorem C5_witness :
    (main_run ⟨"w", some "vlan", Option.none, (fun _ => Option.none), true⟩
      "present"
      ⟨.resourceExc ⟨some 404, "404"⟩,
        .ok (), .ok (), .ok (), .ok (), .ok []⟩).1 = [] ∧
    (ModuleResult.changed
      ⟨true, "SDN zone \x27w\x27 would be created (check mode).",
        some [("zone", PValue.str "w"), ("type", PValue.str "vlan")], false⟩)
      = ((main_run
          ⟨"w", some "vlan", Option.none, (fun _ => Option.none), false⟩
          "present"
          ⟨.resourceExc ⟨some 404, "404"⟩,
            .ok (), .ok (), .ok (), .ok (), .ok []⟩).1.any isMutating) :=
  ⟨(C5_dry_run_purity _ "present" _ rfl).1,
   (C5_dry_run_purity
      ⟨"w", some "vlan", Option.none, (fun _ => Option.none), true⟩ "present"
      ⟨.resourceExc ⟨some 404, "404"⟩,
        .ok (), .ok (), .ok (), .ok (), .ok []⟩ rfl).2 _ (by rfl)⟩

/-- C6 counterexample: in check mode with the zone present,
`ensure_absent` reports `changed = true` without calling, but returns
the observed zone as the result state, not an absent state, against
the claim that the result state is absent whenever the zone was
present. -/
theorem C6_counterexample :
    ensure_absent
      ⟨"w", Option.none, Option.none, (fun _ => Option.none), true⟩
      ⟨.ok [("zone", .str "w"), ("type", .str "vlan")],
        .ok (), .ok (), .ok (), .ok (), .ok []⟩
      = ([], .ok (true,
          some [("zone", .str "w"), ("type", .str "vlan")],
          "SDN zone \x27w\x27 would be removed (check mode).")) ∧
    (some [("zone", PValue.str "w"), ("type", PValue.str "vlan")]
      ≠ (Option.none : Option Dict)) :=
  ⟨by rfl, by decide⟩

/-- C6 (amended): if the zone is absent, `ensure_absent` reports
`changed = false`, makes no call and returns an absent state; if it is
present, then in check mode it predicts `changed = true` without
calling and returns the observed state, and otherwise it issues the
delete call once, reports `changed = true` and returns an absent
state. -/
theorem C6_ensure_absent (p : Params) (api : Api) :
    (get_zone p.zone api.fetch1 = .ok Option.none →
      ensure_absent p api = ([], .ok (false, Option.none,
        "SDN zone \x27" ++ p.zone ++ "\x27 already absent."))) ∧
    (∀ obs, get_zone p.zone api.fetch1 = .ok (some obs) → obs ≠ [] →
      (p.check_mode = true →
        ensure_absent p api = ([], .ok (true, some obs,
          "SDN zone \x27" ++ p.zone ++ "\x27 would be removed (check mode).")))
      ∧
      (p.check_mode = false → api.deleteResult = .ok () →
        ensure_absent p api =
          ([.delete p.zone (with_lock_token p.lock_token [])],
           .ok (true, Option.none,
             "SDN zone \x27" ++ p.zone ++ "\x27 removed.")))) := by
  constructor
  · intro hg
    simp [ensure_absent, hg, truthyZone]
  · intro obs hg hne
    have hobs : obs.isEmpty = false := by
      cases obs with
      | nil => exact absurd rfl hne
      | cons kv rest => rfl
    constructor
    · intro hcm
      simp [ensure_absent, hg, truthyZone, hobs, hcm]
    · intro hcm hdr
      simp [ensure_absent, hg, truthyZone, hobs, hcm, hdr]

/-- Witness for C6: a real (non-check) removal of an existing zone
issues exactly one delete call with empty keyword dict and returns the
absent state. -/
theorem C6_witness :
    ensure_absent
      ⟨"w", Option.none, Option.none, (fun _ => Option.none), false⟩
      ⟨.ok [("zone", .str "w")], .ok (), .ok (), .ok (), .ok (), .ok []⟩
      = ([.delete "w" (with_lock_token Option.none [])],
         .ok (true, Option.none, "SDN zone \x27w\x27 removed.")) :=
  ((C6_ensure_absent
      ⟨"w", Option.none, Option.none, (fun _ => Option.none), false⟩
      ⟨.ok [("zone", .str "w")], .ok (), .ok (), .ok (), .ok (),
        .ok []⟩).2
    [("zone", .str "w")] rfl (by decide)).2 rfl rfl

/-- C7: the committer performs no call and returns false under dry-run;
otherwise it issues the apply call exactly once, returning true on
success and failing fatally on error; and a whole run invokes the apply
call at most once and only when its `ensure_*` part reported a
change. -/
theorem C7_committer (r : Except String Unit) :
    apply_sdn_configuration r true = ([], .ok false) ∧
    (apply_sdn_configuration r false).1 = [.applySdn] ∧
    (r = .ok () → apply_sdn_configuration r false = ([.applySdn], .ok true)) ∧
    (∀ e, r = .error e → apply_sdn_configuration r false
      = ([.applySdn], .error ("Failed to apply SDN configuration: " ++ e))) ∧
    (∀ (q : Params) (state : String) (api : Api),
      (main_run q state api).1.count .applySdn ≤ 1 ∧
      (.applySdn ∈ (main_run q state api).1 →
        ∃ zd m, (if state == "present" then ensure_present q api
                 else ensure_absent q api).2 = .ok (true, zd, m))) := by
  refine ⟨by rfl, by rcases r with e | u <;> rfl,
    fun h => by rw [h]; rfl, fun e h => by rw [h]; rfl, ?_⟩
  intro q state api
  rcases he : (if state == "present" then ensure_present q api
      else ensure_absent q api) with ⟨calls, r'⟩
  have hno : ApiCall.applySdn ∉ calls := by
    intro hmem
    by_cases hs : (state == "present") = true
    · rw [if_pos hs] at he
      have hm' : ApiCall.applySdn ∈ (ensure_present q api).1 := by
        rw [he]
        exact hmem
      rcases ensure_present_calls q api _ hm' with h' | ⟨ez, h'⟩
      · exact ApiCall.noConfusion h'
      · exact ApiCall.noConfusion h'
    · rw [if_neg hs] at he
      have hm' : ApiCall.applySdn ∈ (ensure_absent q api).1 := by
        rw [he]
        exact hmem
      exact ApiCall.noConfusion (ensure_absent_calls q api _ hm')
  have hcnt : calls.count ApiCall.applySdn = 0 := List.count_eq_zero.mpr hno
  rcases r' with e | ⟨ch, zd, m⟩
  · have h1 : main_run q state api = (calls, .error e) := by
      unfold main_run
      rw [he]
    constructor
    · rw [h1]
      simp [hcnt]
    · intro hmem
      rw [h1] at hmem
      exact absurd hmem hno
  · by_cases hch : ch = true
    · have h1 : (main_run q state api).1
          = calls ++ (apply_sdn_configuration api.applyResult q.check_mode).1 := by
        unfold main_run
        rw [he]
        simp only [hch, if_true]
        rcases hap : apply_sdn_configuration api.applyResult q.check_mode
          with ⟨calls2, r2⟩
        rcases r2 with e2 | ap <;> rfl
      constructor
      · rw [h1, List.count_append, hcnt]
        rcases apply_calls_cases api.applyResult q.check_mode with h2 | h2 <;>
          rw [h2] <;> simp
      · intro hmem
        refine ⟨zd, m, ?_⟩
        show Except.ok (ch, zd, m) = Except.ok (true, zd, m)
        rw [hch]
    · have h1 : (main_run q state api).1 = calls := by
        unfold main_run
        rw [he]
        simp [hch]
      constructor
      · rw [h1, hcnt]
        exact Nat.zero_le 1
      · intro hmem
        rw [h1] at hmem
        exact absurd hmem hno

/-- Witness for C7: the committer on a successful transport, real
mode. -/
theorem C7_witness :
    apply_sdn_configuration (.ok ()) false = ([.applySdn], .ok true) :=
  (C7_committer (.ok ())).2.2.1 rfl

/-- C2: for a desired attribute set equal (after boolean coercion and
string comparison) to the observed state of an existing zone whose type
does not conflict with the supplied one, `ensure_present` reports
`changed = false`, issues no API call, and returns the observed state
unchanged. -/
theorem C2_noop_preservation (p : Params) (api : Api) (obs : Dict)
    (hfetch : api.fetch1 = .ok obs)
    (hne : obs ≠ [])
    (htype : ∀ t, p.type = some t → t ≠ "" → pstrOpt (dget obs "type") = t)
    (heq : ∀ kv ∈ build_payload p.attrs, pstrOpt (dget obs kv.1) = pstr kv.2) :
    ensure_present p api =
      ([], .ok (false, some obs,
        "SDN zone \x27" ++ p.zone ++ "\x27 already present.")) := by
  have hobs : obs.isEmpty = false := by
    cases obs with
    | nil => exact absurd rfl hne
    | cons kv rest => rfl
  have hupd : build_updates obs (build_payload p.attrs) = [] :=
    build_updates_of_eq obs _ heq
  have htc : (truthyStr p.type &&
      !(pstrOpt (dget obs "type") == p.type.getD "")) = false := by
    cases hp : p.type with
    | none => rfl
    | some t =>
      by_cases ht : t = ""
      · subst ht; rfl
      · simp [truthyStr, htype t hp ht, ht]
  simp [ensure_present, hfetch, get_zone, truthyZone, hobs, htc, hupd]

/-- Witness for C2: a matching zone with one attribute, observed with
an integer where the desired value is the same integer. -/
theorem C2_witness :
    ensure_present
      ⟨"w", some "vlan", Option.none,
        (fun o => if o == "mtu" then some (.int 1400) else Option.none), false⟩
      ⟨.ok [("zone", .str "w"), ("type", .str "vlan"), ("mtu", .int 1400)],
        .ok (), .ok (), .ok (), .ok (), .ok []⟩ =
      ([], .ok (false,
        some [("zone", .str "w"), ("type", .str "vlan"), ("mtu", .int 1400)],
        "SDN zone \x27w\x27 already present.")) := by
  refine C2_noop_preservation _ _ _ rfl (by simp) ?_ ?_
  · intro t ht _
    cases ht
    rfl
  · intro kv hkv
    have : build_payload
        (fun o => if o == "mtu" then some (PValue.int 1400) else Option.none)
        = [("mtu", PValue.int 1400)] := by rfl
    rw [this] at hkv
    rcases List.mem_singleton.mp hkv with h
    rw [h]
    rfl

/-- C8: with check mode off, after a successful `ensure_present` run
against a server that persists exactly what it is sent, a second
`ensure_present` run with the same parameters, observing exactly the
state produced by the first run, reports `changed = false`, issues no
call, and returns that state unchanged. -/
theorem C8_idempotence (p : Params) (s0 : Option Dict) (api api2 : Api)
    (hcm : p.check_mode = false)
    (hf1 : api.fetch1 = mk_fetch s0)
    (ch1 : Bool) (zd1 : Option Dict) (m1 : String)
    (hok : (ensure_present p api).2 = .ok (ch1, zd1, m1))
    (hf2 : api2.fetch1 = mk_fetch (server_run s0 (ensure_present p api).1)) :
    ∃ d2, server_run s0 (ensure_present p api).1 = some d2 ∧
      ensure_present p api2 = ([], .ok (false, some d2,
        "SDN zone \x27" ++ p.zone ++ "\x27 already present.")) := by
  have hg1 : get_zone p.zone api.fetch1 = .ok s0 := by
    rw [hf1]
    exact get_zone_mk_fetch _ _
  by_cases hz : truthyZone s0
  · rcases s0 with _ | d
    · exact absurd hz (by simp [truthyZone])
    have hde : d.isEmpty = false := by simpa [truthyZone] using hz
    by_cases hy : (truthyStr p.type &&
        !(pstrOpt (dget d "type") == p.type.getD "")) = true
    · exfalso
      simp [ensure_present, hg1, truthyZone, hde, hy] at hok
    have hyf : (truthyStr p.type &&
        !(pstrOpt (dget d "type") == p.type.getD "")) = false := by
      simpa using hy
    by_cases hup : (build_updates d (build_payload p.attrs)).isEmpty
    · have hcalls : (ensure_present p api).1 = [] := by
        simp [ensure_present, hg1, truthyZone, hde, hyf, hup]
      refine ⟨d, by rw [hcalls]; rfl, ?_⟩
      have hg2 : get_zone p.zone api2.fetch1 = .ok (some d) := by
        rw [hf2, hcalls]
        exact get_zone_mk_fetch _ _
      simp [ensure_present, hg2, truthyZone, hde, hyf, hup]
    · rcases hur : api.updateResult with e1 | u
      · exfalso
        simp [ensure_present, hg1, truthyZone, hde, hyf, hup, hcm, hur] at hok
      rcases hf2r : get_zone p.zone api.fetch2 with e2 | nz
      · exfalso
        simp [ensure_present, hg1, truthyZone, hde, hyf, hup, hcm, hur,
          hf2r] at hok
      have hcalls : (ensure_present p api).1
          = [.update p.zone (with_lock_token p.lock_token
              (build_updates d (build_payload p.attrs)))] := by
        simp [ensure_present, hg1, truthyZone, hde, hyf, hup, hcm, hur, hf2r]
      obtain ⟨U, hU⟩ : ∃ x, build_updates d (build_payload p.attrs) = x :=
        ⟨_, rfl⟩
      rw [hU] at hcalls hup
      obtain ⟨U', hU'⟩ : ∃ x, with_lock_token p.lock_token U = x := ⟨_, rfl⟩
      rw [hU'] at hcalls
      have hdne : d ≠ [] := by
        intro h
        rw [h] at hde
        simp at hde
      refine ⟨dupdate d U', by rw [hcalls]; rfl, ?_⟩
      have hg2 : get_zone p.zone api2.fetch1 = .ok (some (dupdate d U')) := by
        rw [hf2, hcalls]
        exact get_zone_mk_fetch _ _
      have hnn : (dupdate d U').isEmpty = false := by
        rcases hdd : dupdate d U' with _ | ⟨a, l⟩
        · exact absurd hdd (dupdate_ne_nil d U' hdne)
        · rfl
      have hUfilter : U = (build_payload p.attrs).filter (differs d) := by
        rw [← hU]
        exact build_updates_eq_filter d _ (build_payload_nodup p.attrs)
      have hUsub : ∀ u ∈ U, u ∈ build_payload p.attrs := by
        intro u hu
        rw [hUfilter] at hu
        exact List.mem_of_mem_filter hu
      have hUnodup : (dkeys U).Nodup := by
        rw [hUfilter]
        exact List.Nodup.sublist ((List.filter_sublist _).map Prod.fst)
          (build_payload_nodup p.attrs)
      have hkeysU' : ∀ u ∈ U', u.1 = "lock-token" ∨ u ∈ U := by
        intro u hu
        rw [← hU'] at hu
        unfold with_lock_token at hu
        split at hu
        · rcases mem_dinsert _ _ _ u hu with h | h
          · exact Or.inr h
          · exact Or.inl (by rw [h])
        · exact Or.inr hu
      have hU'nodup : (dkeys U').Nodup := by
        rw [← hU']
        unfold with_lock_token
        split
        · exact nodup_dkeys_dinsert _ _ _ hUnodup
        · exact hUnodup
      have htype_unch : dget (dupdate d U') "type" = dget d "type" := by
        refine dget_dupdate_of_not_key _ _ _ ?_
        intro kv hkv
        rcases hkeysU' kv hkv with h | h
        · rw [h]
          decide
        · exact (build_payload_key_not_reserved p.attrs kv (hUsub kv h)).2.1
      have hyf2 : (truthyStr p.type &&
          !(pstrOpt (dget (dupdate d U') "type") == p.type.getD "")) = false := by
        rw [htype_unch]
        exact hyf
      have hupd2 : build_updates (dupdate d U') (build_payload p.attrs) = [] := by
        refine build_updates_of_eq _ _ ?_
        intro kv hkv
        by_cases hdif : pstrOpt (dget d kv.1) = pstr kv.2
        · have hnotin : ∀ u ∈ U', u.1 ≠ kv.1 := by
            intro u hu
            rcases hkeysU' u hu with h | h
            · rw [h]
              intro heq
              exact (build_payload_key_not_reserved p.attrs kv hkv).2.2 heq.symm
            · intro heq
              have huBP := hUsub u h
              have hukv : u = kv := nodup_key_unique _
                (build_payload_nodup p.attrs) u kv huBP hkv heq
              rw [hukv, hUfilter] at h
              have hd := (List.mem_filter.mp h).2
              simp [differs] at hd
              exact hd hdif
          rw [dget_dupdate_of_not_key _ _ _ hnotin]
          exact hdif
        · have hkvU : kv ∈ U := by
            rw [hUfilter]
            refine List.mem_filter.mpr ⟨hkv, ?_⟩
            simp [differs, hdif]
          have hkvU' : kv ∈ U' := by
            rw [← hU']
            unfold with_lock_token
            split
            · exact mem_dinsert_of_mem_ne _ _ _ _ hkvU
                (build_payload_key_not_reserved p.attrs kv hkv).2.2
            · exact hkvU
          rw [dget_dupdate_mem d U' kv.1 kv.2 hU'nodup hkvU']
          rfl
      simp [ensure_present, hg2, truthyZone, hnn, hyf2, hupd2]
  · have hzf : truthyZone s0 = false := by simpa using hz
    rcases hcr : api.createResult with e1 | u
    · exfalso
      simp [ensure_present, hg1, hzf, hcm, hcr] at hok
    rcases hf2r : get_zone p.zone api.fetch2 with e2 | nz
    · exfalso
      simp [ensure_present, hg1, hzf, hcm, hcr, hf2r] at hok
    have hcalls : (ensure_present p api).1 = [.create (create_payload_of p)] := by
      simp [ensure_present, hg1, hzf, hcm, hcr, hf2r]
    refine ⟨create_payload_of p, by rw [hcalls]; rfl, ?_⟩
    have hg2 : get_zone p.zone api2.fetch1 = .ok (some (create_payload_of p)) := by
      rw [hf2, hcalls]
      exact get_zone_mk_fetch _ _
    have hcp1 : dget (create_payload_of p) "type" = some (typeVal p.type) := by
      rw [create_payload_of, dget_with_lock_token_ne _ _ _ (by decide),
        dget_dinsert_self]
    have hnn : (create_payload_of p).isEmpty = false := by
      rcases hdd : create_payload_of p with _ | ⟨a, l⟩
      · rw [hdd] at hcp1
        simp [dget] at hcp1
      · rfl
    have hyf2 : (truthyStr p.type &&
        !(pstrOpt (dget (create_payload_of p) "type") == p.type.getD "")) = false := by
      rw [hcp1]
      rcases hpt : p.type with _ | t
      · rfl
      · simp [truthyStr, typeVal, pstrOpt, pstr]
    have hupd2 : build_updates (create_payload_of p) (build_payload p.attrs) = [] := by
      refine build_updates_of_eq _ _ ?_
      intro kv hkv
      have hres := build_payload_key_not_reserved p.attrs kv hkv
      rw [create_payload_of, dget_with_lock_token_ne _ _ _ hres.2.2,
        dget_dinsert_ne _ _ _ _ hres.2.1, dget_dinsert_ne _ _ _ _ hres.1,
        dget_of_mem_nodup _ _ _ (build_payload_nodup p.attrs) hkv]
      rfl
    simp [ensure_present, hg2, truthyZone, hnn, hyf2, hupd2]

/-- Observed state for the C8 witness scenario. -/
def c8obs : Dict :=
  [("zone", .str "w"), ("type", .str "vlan"),
   ("mtu", .int 1400), ("controller", .str "frr01")]

/-- Desired attributes for the C8 witness scenario. -/
def c8attrs : String → Option PValue := fun o =>
  if o == "mtu" then some (.int 1500)
  else if o == "controller" then some (.str "frr01")
  else Option.none

/-- Parameters for the C8 witness scenario. -/
def c8p : Params := ⟨"w", some "vlan", Option.none, c8attrs, false⟩

/-- First-run transport responses for the C8 witness scenario. -/
def c8api : Api := ⟨.ok c8obs, .ok (), .ok (), .ok (), .ok (), .ok []⟩

/-- Second-run transport responses: the first fetch observes exactly
the server state produced by the first run. -/
def c8api2 : Api :=
  ⟨mk_fetch (server_run (some c8obs) (ensure_present c8p c8api).1),
   .ok (), .ok (), .ok (), .ok (), .ok []⟩

/-- Witness for C8: a concrete update run (mtu 1400 → 1500) followed by
a second run observing the produced state, which reports no change. -/
theorem C8_witness :
    ∃ d2, server_run (some c8obs) (ensure_present c8p c8api).1 = some d2 ∧
      ensure_present c8p c8api2 = ([], .ok (false, some d2,
        "SDN zone \x27w\x27 already present.")) :=
  C8_idempotence c8p (some c8obs) c8api c8api2 rfl rfl true (some [])
    "SDN zone \x27w\x27 updated." (by rfl) rfl

end SdnZone
